import Mathlib

/-!
Verification of the NeuroGate worker-pool dispatcher core:
the per-worker circuit breaker (pkg/circuitbreaker/circuitbreaker.go)
and the round-robin selector of the gateway (cmd/gateway/main.go).

Time is modelled as an integer (`Int`, think nanoseconds since epoch);
every operation that reads the wall clock in Go takes an explicit `now`
argument.  Durations are integers of the same unit.  The Go `int`
counters are modelled as `Int`.  The state-change callback is modelled
by returning the list of (from, to) transition events an operation
emits; the Go code invokes the callback exactly once per emitted event
(when a callback is registered).
-/

/-- Breaker state: `State` in circuitbreaker.go (`StateClosed`,
`StateOpen`, `StateHalfOpen`). -/
inductive BState where
  | closed
  | opened
  | halfOpen
  deriving DecidableEq, Repr

/-- A (from, to) state-change event, i.e. one invocation of the
`onStateChange` callback. -/
abbrev TransitionEvent : Type := BState × BState

/-- The mutable fields of `CircuitBreaker` in circuitbreaker.go, plus its
per-instance configuration. -/
structure CircuitBreaker where
  name : String
  state : BState
  failureCount : Int
  successCount : Int
  lastFailure : Int
  lastStateChange : Int
  failureThreshold : Int
  successThreshold : Int
  timeout : Int
  deriving DecidableEq, Repr

/-- Structure `Config` in circuitbreaker.go (the callback is modelled externally by
the event lists the operations return). -/
structure Config where
  Name : String
  FailureThreshold : Int
  SuccessThreshold : Int
  Timeout : Int
  deriving DecidableEq, Repr

/-- Constructor `New` in circuitbreaker.go: defaults non-positive configuration values
(FailureThreshold 3, SuccessThreshold 1, Timeout 30s) and starts Closed.
`now` is the `time.Now()` read for `lastStateChange`; `lastFailure` is the
zero time, modelled as instant 0. -/
def New (cfg : Config) (now : Int) : CircuitBreaker :=
  { name := cfg.Name
    state := .closed
    failureCount := 0
    successCount := 0
    lastFailure := 0
    lastStateChange := now
    failureThreshold := if cfg.FailureThreshold ≤ 0 then 3 else cfg.FailureThreshold
    successThreshold := if cfg.SuccessThreshold ≤ 0 then 1 else cfg.SuccessThreshold
    timeout := if cfg.Timeout ≤ 0 then 30000000000 else cfg.Timeout }

/-- Method `transitionTo` in circuitbreaker.go: a transition to the current state
is a no-op; otherwise the state changes, `lastStateChange` is stamped,
both counters reset to 0 and one callback event is emitted. -/
def transitionTo (cb : CircuitBreaker) (newState : BState) (now : Int) :
    CircuitBreaker × List TransitionEvent :=
  if cb.state = newState then (cb, [])
  else
    ({ cb with
        state := newState
        lastStateChange := now
        failureCount := 0
        successCount := 0 },
     [(cb.state, newState)])

/-- Method `AllowRequest` in circuitbreaker.go.  Returns the boolean answer, the
updated breaker and the emitted events.  `time.Since(cb.lastFailure)` is
`now - cb.lastFailure`. -/
def AllowRequest (cb : CircuitBreaker) (now : Int) :
    Bool × CircuitBreaker × List TransitionEvent :=
  match cb.state with
  | .closed => (true, cb, [])
  | .opened =>
      if now - cb.lastFailure ≥ cb.timeout then
        let t := transitionTo cb .halfOpen now
        (true, t.1, t.2)
      else
        (false, cb, [])
  | .halfOpen => (true, cb, [])

/-- The boolean answer of `AllowRequest`. -/
def allowRequestB (cb : CircuitBreaker) (now : Int) : Bool :=
  (AllowRequest cb now).1

/-- Method `RecordSuccess` in circuitbreaker.go. -/
def RecordSuccess (cb : CircuitBreaker) (now : Int) :
    CircuitBreaker × List TransitionEvent :=
  match cb.state with
  | .closed => ({ cb with failureCount := 0 }, [])
  | .halfOpen =>
      let cb1 := { cb with successCount := cb.successCount + 1 }
      if cb1.successCount ≥ cb1.successThreshold then
        transitionTo cb1 .closed now
      else
        (cb1, [])
  | .opened => (cb, [])

/-- Method `RecordFailure` in circuitbreaker.go: always increments the failure
counter and stamps `lastFailure`, then may transition. -/
def RecordFailure (cb : CircuitBreaker) (now : Int) :
    CircuitBreaker × List TransitionEvent :=
  let cb1 := { cb with failureCount := cb.failureCount + 1, lastFailure := now }
  match cb1.state with
  | .closed =>
      if cb1.failureCount ≥ cb1.failureThreshold then
        transitionTo cb1 .opened now
      else
        (cb1, [])
  | .halfOpen => transitionTo cb1 .opened now
  | .opened => (cb1, [])

/-- Method `Reset` in circuitbreaker.go. -/
def Reset (cb : CircuitBreaker) (now : Int) :
    CircuitBreaker × List TransitionEvent :=
  let t := transitionTo cb .closed now
  ({ t.1 with failureCount := 0, successCount := 0 }, t.2)

/-- Iterate `k` consecutive `RecordFailure` calls (left to right), all at time
`now`, events dropped. -/
def recordFailureN (cb : CircuitBreaker) (now : Int) : Nat → CircuitBreaker
  | 0 => cb
  | k + 1 => recordFailureN (RecordFailure cb now).1 now k

/-- Iterate `k` consecutive `RecordSuccess` calls (left to right), all at time
`now`, with the concatenation of all emitted events. -/
def recordSuccessN (cb : CircuitBreaker) (now : Int) :
    Nat → CircuitBreaker × List TransitionEvent
  | 0 => (cb, [])
  | k + 1 =>
      let s := RecordSuccess cb now
      let rest := recordSuccessN s.1 now k
      (rest.1, s.2 ++ rest.2)

lemma recordFailureN_succ_right (cb : CircuitBreaker) (now : Int) (k : Nat) :
    recordFailureN cb now (k + 1) =
      (RecordFailure (recordFailureN cb now k) now).1 := by
  induction k generalizing cb with
  | zero => rfl
  | succ k ih =>
      show recordFailureN (RecordFailure cb now).1 now (k + 1) = _
      rw [ih]
      rfl

lemma recordFailureN_closed (now : Int) :
    ∀ (k : Nat) (cb : CircuitBreaker), cb.state = .closed →
      cb.failureCount + (k : Int) < cb.failureThreshold →
      (recordFailureN cb now k).state = .closed ∧
      (recordFailureN cb now k).failureCount = cb.failureCount + (k : Int) ∧
      (recordFailureN cb now k).failureThreshold = cb.failureThreshold := by
  intro k
  induction k with
  | zero =>
      intro cb hs _
      simpa [recordFailureN] using hs
  | succ k ih =>
      intro cb hs hlt
      have hone : (RecordFailure cb now).1 =
          { cb with failureCount := cb.failureCount + 1, lastFailure := now } := by
        unfold RecordFailure
        simp only [hs]
        have : ¬ cb.failureCount + 1 ≥ cb.failureThreshold := by
          push_cast at hlt; omega
        simp [this]
      have h1 : recordFailureN cb now (k + 1) =
          recordFailureN (RecordFailure cb now).1 now k := rfl
      rw [h1, hone]
      have := ih { cb with failureCount := cb.failureCount + 1, lastFailure := now }
        (by simp [hs]) (by simp only []; push_cast at hlt ⊢; omega)
      simp only [] at this
      refine ⟨this.1, ?_, ?_⟩
      · rw [this.2.1]; push_cast; ring
      · rw [this.2.2]

/-- Claim C1: For a circuit breaker with failure threshold `F` that starts in
Closed (fresh counters), after exactly `F` consecutive `RecordFailure` calls
with no intervening success the state is Open; after only `F - 1` such calls
the state is still Closed. -/
theorem C1_failure_threshold (cb : CircuitBreaker) (now : Int) (F : Nat)
    (hs : cb.state = .closed) (hc : cb.failureCount = 0)
    (hF : cb.failureThreshold = (F : Int)) (hF1 : 1 ≤ F) :
    (recordFailureN cb now (F - 1)).state = .closed ∧
    (recordFailureN cb now F).state = .opened := by
  have hpre := recordFailureN_closed now (F - 1) cb hs
    (by rw [hc, hF]; omega)
  constructor
  · exact hpre.1
  · have hFsplit : F = (F - 1) + 1 := by omega
    rw [hFsplit, recordFailureN_succ_right]
    set cb1 := recordFailureN cb now (F - 1) with hcb1
    have h1 : cb1.state = .closed := hpre.1
    have h2 : cb1.failureCount = (F : Int) - 1 := by
      rw [hpre.2.1, hc]; omega
    have h3 : cb1.failureThreshold = (F : Int) := by rw [hpre.2.2, hF]
    unfold RecordFailure
    simp only [h1]
    have hge : cb1.failureCount + 1 ≥ cb1.failureThreshold := by
      rw [h2, h3]; omega
    simp only [hge, if_pos]
    unfold transitionTo
    simp

/-- Witness for C1: threshold 3, fresh breaker: 2 failures leave it Closed,
the 3rd opens it. -/
theorem C1_failure_threshold_witness :
    (recordFailureN (New ⟨"w", 3, 1, 100⟩ 0) 0 2).state = .closed ∧
    (recordFailureN (New ⟨"w", 3, 1, 100⟩ 0) 0 3).state = .opened :=
  C1_failure_threshold (New ⟨"w", 3, 1, 100⟩ 0) 0 3
    (by decide) (by decide) (by decide) (by decide)

/-- Claim C2: Open breaker, last failure `T`, open-timeout `D`: every
`AllowRequest` before `T + D` answers `false` and leaves the breaker
untouched (hence the state stays Open); an `AllowRequest` at or after
`T + D` answers `true` and transitions to HalfOpen.  Closed always answers
`true`, HalfOpen always answers `true` (both without mutation). -/
theorem C2_open_timeout_gate (cb : CircuitBreaker) (now T D : Int) :
    (cb.state = .opened → cb.lastFailure = T → cb.timeout = D →
      now < T + D → AllowRequest cb now = (false, cb, [])) ∧
    (cb.state = .opened → cb.lastFailure = T → cb.timeout = D →
      T + D ≤ now →
        allowRequestB cb now = true ∧
        (AllowRequest cb now).2.1.state = .halfOpen) ∧
    (cb.state = .closed → AllowRequest cb now = (true, cb, [])) ∧
    (cb.state = .halfOpen → AllowRequest cb now = (true, cb, [])) := by
  refine ⟨?_, ?_, ?_, ?_⟩
  · intro hs hT hD hlt
    unfold AllowRequest
    simp only [hs]
    have : ¬ now - cb.lastFailure ≥ cb.timeout := by rw [hT, hD]; omega
    simp [this]
  · intro hs hT hD hge
    have helapsed : now - cb.lastFailure ≥ cb.timeout := by rw [hT, hD]; omega
    constructor
    · unfold allowRequestB AllowRequest
      simp [hs, helapsed]
    · unfold AllowRequest
      simp only [hs, helapsed, if_pos]
      unfold transitionTo
      rw [hs]
      simp
  · intro hs; unfold AllowRequest; simp [hs]
  · intro hs; unfold AllowRequest; simp [hs]

/-- A concrete Open breaker: last failure at instant 100, open-timeout 50. -/
def exOpenCB : CircuitBreaker :=
  { name := "w"
    state := .opened
    failureCount := 0
    successCount := 0
    lastFailure := 100
    lastStateChange := 100
    failureThreshold := 3
    successThreshold := 1
    timeout := 50 }

/-- Witness for C2: breaker opened with last failure at 100, timeout 50:
a check at 120 is refused without mutation, a check at 150 is permitted
and moves to HalfOpen. -/
theorem C2_open_timeout_gate_witness :
    (AllowRequest exOpenCB 120 = (false, exOpenCB, [])) ∧
    (allowRequestB exOpenCB 150 = true ∧
     (AllowRequest exOpenCB 150).2.1.state = .halfOpen) :=
  ⟨(C2_open_timeout_gate exOpenCB 120 100 50).1 rfl rfl rfl (by decide),
   (C2_open_timeout_gate exOpenCB 150 100 50).2.1 rfl rfl rfl (by decide)⟩

lemma recordSuccessN_halfOpen (now : Int) :
    ∀ (k : Nat) (cb : CircuitBreaker), cb.state = .halfOpen →
      cb.successCount + (k : Int) < cb.successThreshold →
      (recordSuccessN cb now k).1.state = .halfOpen := by
  intro k
  induction k with
  | zero => intro cb hs _; simpa [recordSuccessN] using hs
  | succ k ih =>
      intro cb hs hlt
      have hone : (RecordSuccess cb now).1 =
          { cb with successCount := cb.successCount + 1 } := by
        unfold RecordSuccess
        simp only [hs]
        have : ¬ cb.successCount + 1 ≥ cb.successThreshold := by
          push_cast at hlt; omega
        simp [this]
      show (recordSuccessN (RecordSuccess cb now).1 now k).1.state = .halfOpen
      rw [hone]
      exact ih _ (by simp [hs]) (by simp only []; push_cast at hlt ⊢; omega)

/-- Claim C3: From HalfOpen, a single `RecordFailure` transitions the breaker
to Open, no matter how many successes were recorded in HalfOpen before it
(any success count below the success threshold). -/
theorem C3_halfOpen_fragility (cb : CircuitBreaker) (now : Int) (k : Nat)
    (hs : cb.state = .halfOpen) (hc : cb.successCount = 0)
    (hk : (k : Int) < cb.successThreshold) :
    (RecordFailure (recordSuccessN cb now k).1 now).1.state = .opened := by
  have hho : (recordSuccessN cb now k).1.state = .halfOpen :=
    recordSuccessN_halfOpen now k cb hs (by rw [hc]; omega)
  set cb1 := (recordSuccessN cb now k).1
  unfold RecordFailure
  simp only [hho]
  unfold transitionTo
  simp [hho]

/-- A concrete HalfOpen breaker with success threshold 5. -/
def exHalfOpenCB : CircuitBreaker :=
  { name := "w"
    state := .halfOpen
    failureCount := 0
    successCount := 0
    lastFailure := 0
    lastStateChange := 0
    failureThreshold := 3
    successThreshold := 5
    timeout := 50 }

/-- Witness for C3: HalfOpen breaker with success threshold 5, after 4
recorded successes a single failure reopens it. -/
theorem C3_halfOpen_fragility_witness :
    (RecordFailure (recordSuccessN exHalfOpenCB 7 4).1 7).1.state = .opened :=
  C3_halfOpen_fragility exHalfOpenCB 7 4 rfl rfl (by decide)

/-- The error surface of `Execute`: either the distinguished
`ErrCircuitOpen`, or the error returned by the guarded function,
propagated unchanged. -/
inductive ExecErr (ε : Type) where
  | circuitOpen
  | fnError (e : ε)
  deriving DecidableEq, Repr

/-- Outcome of one `Execute` call: the returned error (`none` = nil
error), how many times `fn` was invoked, the breaker afterwards, and the
emitted callback events. -/
structure ExecOut (ε : Type) where
  result : Option (ExecErr ε)
  invocations : Nat
  cb : CircuitBreaker
  events : List TransitionEvent
  deriving DecidableEq, Repr

/-- Method `Execute` in circuitbreaker.go.  `fnErr` is the error the guarded
function `fn` returns when invoked (`none` for a nil error); the field
`invocations` counts how often `fn` ran. -/
def Execute {ε : Type} (cb : CircuitBreaker) (fnErr : Option ε) (now : Int) :
    ExecOut ε :=
  if (AllowRequest cb now).1 = false then
    { result := some .circuitOpen
      invocations := 0
      cb := (AllowRequest cb now).2.1
      events := (AllowRequest cb now).2.2 }
  else
    match fnErr with
    | some e =>
        { result := some (.fnError e)
          invocations := 1
          cb := (RecordFailure (AllowRequest cb now).2.1 now).1
          events := (AllowRequest cb now).2.2 ++
            (RecordFailure (AllowRequest cb now).2.1 now).2 }
    | none =>
        { result := none
          invocations := 1
          cb := (RecordSuccess (AllowRequest cb now).2.1 now).1
          events := (AllowRequest cb now).2.2 ++
            (RecordSuccess (AllowRequest cb now).2.1 now).2 }

lemma allowRequest_false_no_mutation (cb : CircuitBreaker) (now : Int)
    (h : allowRequestB cb now = false) :
    AllowRequest cb now = (false, cb, []) := by
  unfold allowRequestB at h
  unfold AllowRequest at h ⊢
  cases hs : cb.state with
  | closed => rw [hs] at h; simp at h
  | halfOpen => rw [hs] at h; simp at h
  | opened =>
      rw [hs] at h
      by_cases he : now - cb.lastFailure ≥ cb.timeout
      · simp [he] at h
      · simp [he]

/-- Claim C4: `Execute fn` returns the distinguished circuit-open error
without invoking `fn` whenever `AllowRequest` is false (the breaker is
untouched); when `AllowRequest` is true it invokes `fn` exactly once,
then records a failure if `fn` returned an error and a success otherwise,
and returns `fn`'s error (or nil) unchanged. -/
theorem C4_execute_guard {ε : Type} (cb : CircuitBreaker) (fnErr : Option ε)
    (now : Int) :
    (allowRequestB cb now = false →
      Execute cb fnErr now =
        { result := some .circuitOpen, invocations := 0, cb := cb, events := [] }) ∧
    (allowRequestB cb now = true →
      (Execute cb fnErr now).invocations = 1 ∧
      (Execute cb fnErr now).result = fnErr.map ExecErr.fnError ∧
      (Execute cb fnErr now).cb =
        (match fnErr with
         | some _ => (RecordFailure (AllowRequest cb now).2.1 now).1
         | none => (RecordSuccess (AllowRequest cb now).2.1 now).1)) := by
  constructor
  · intro h
    have hmut := allowRequest_false_no_mutation cb now h
    unfold Execute
    rw [hmut]
    simp
  · intro h
    unfold Execute
    unfold allowRequestB at h
    rw [h]
    cases fnErr with
    | some e => simp
    | none => simp

/-- Witness for C4: on the concrete Open breaker (timeout not elapsed)
`Execute` short-circuits with the circuit-open error and zero invocations;
on a fresh Closed breaker it invokes `fn` once and propagates its error. -/
theorem C4_execute_guard_witness :
    (Execute exOpenCB (some (42 : Int)) 120 =
      { result := some .circuitOpen, invocations := 0, cb := exOpenCB,
        events := [] }) ∧
    ((Execute (New ⟨"w", 3, 1, 100⟩ 0) (some 42) 5).invocations = 1 ∧
     (Execute (New ⟨"w", 3, 1, 100⟩ 0) (some 42) 5).result =
       (some (42 : Int)).map ExecErr.fnError ∧
     (Execute (New ⟨"w", 3, 1, 100⟩ 0) (some 42) 5).cb =
       (RecordFailure (AllowRequest (New ⟨"w", 3, 1, 100⟩ 0) 5).2.1 5).1) :=
  ⟨(C4_execute_guard exOpenCB (some (42 : Int)) 120).1 (by decide),
   (C4_execute_guard (New ⟨"w", 3, 1, 100⟩ 0) (some (42 : Int)) 5).2 (by decide)⟩

/-- One step of the breaker: any of the four mutating operations, at any
instant. -/
inductive BreakerStep : CircuitBreaker → CircuitBreaker → Prop where
  | allow (cb : CircuitBreaker) (now : Int) :
      BreakerStep cb (AllowRequest cb now).2.1
  | success (cb : CircuitBreaker) (now : Int) :
      BreakerStep cb (RecordSuccess cb now).1
  | failure (cb : CircuitBreaker) (now : Int) :
      BreakerStep cb (RecordFailure cb now).1
  | reset (cb : CircuitBreaker) (now : Int) :
      BreakerStep cb (Reset cb now).1

/-- Breakers reachable from `New` by any sequence of operations. -/
inductive ReachableCB : CircuitBreaker → Prop where
  | init (cfg : Config) (now : Int) : ReachableCB (New cfg now)
  | step {cb cb' : CircuitBreaker} :
      ReachableCB cb → BreakerStep cb cb' → ReachableCB cb'

lemma halfOpen_failureCount_zero_preserved (cb cb' : CircuitBreaker)
    (hstep : BreakerStep cb cb')
    (ih : cb.state = .halfOpen → cb.failureCount = 0) :
    cb'.state = .halfOpen → cb'.failureCount = 0 := by
  cases hstep with
  | allow now =>
      cases hs : cb.state with
      | closed => simp [AllowRequest, hs]
      | halfOpen => simp only [AllowRequest, hs]; exact fun _ => ih hs
      | opened =>
          simp only [AllowRequest, hs]
          split
          · simp [transitionTo, hs]
          · simp [hs]
  | success now =>
      cases hs : cb.state with
      | closed => simp [RecordSuccess, hs]
      | opened => simp [RecordSuccess, hs]
      | halfOpen =>
          simp only [RecordSuccess, hs]
          split
          · simp [transitionTo, hs]
          · intro _
            simpa using ih hs
  | failure now =>
      cases hs : cb.state with
      | closed =>
          simp only [RecordFailure, hs]
          split
          · simp [transitionTo, hs]
          · simp [hs]
      | opened => simp [RecordFailure, hs]
      | halfOpen => simp [RecordFailure, transitionTo, hs]
  | reset now =>
      simp [Reset]

/-- Claim C8: Every actual state transition resets both counters to 0, and,
as a consequence, in every reachable breaker state that is HalfOpen the
failure counter is 0 — a failure count accumulated in Closed never
survives into HalfOpen. -/
theorem C8_transition_resets_counters :
    (∀ (cb : CircuitBreaker) (s : BState) (now : Int), s ≠ cb.state →
      (transitionTo cb s now).1.failureCount = 0 ∧
      (transitionTo cb s now).1.successCount = 0) ∧
    (∀ cb : CircuitBreaker, ReachableCB cb →
      cb.state = .halfOpen → cb.failureCount = 0) := by
  constructor
  · intro cb s now hne
    unfold transitionTo
    rw [if_neg (fun h => hne h.symm)]
    exact ⟨rfl, rfl⟩
  · intro cb hreach
    induction hreach with
    | init cfg now => intro h; simp [New] at h
    | step _ hstep ih => exact halfOpen_failureCount_zero_preserved _ _ hstep ih

/-- A chain reaching HalfOpen: fresh breaker (threshold 1, timeout 10),
one failure at t=0 opens it, a permission check at t=20 half-opens it. -/
def exReachedHalfOpenCB : CircuitBreaker :=
  (AllowRequest (RecordFailure (New ⟨"w", 1, 1, 10⟩ 0) 0).1 20).2.1

/-- Witness for C8: a concrete genuine transition zeroes both counters, and
the concretely reached HalfOpen breaker has failure count 0. -/
theorem C8_transition_resets_counters_witness :
    ((transitionTo exHalfOpenCB .opened 9).1.failureCount = 0 ∧
     (transitionTo exHalfOpenCB .opened 9).1.successCount = 0) ∧
    exReachedHalfOpenCB.failureCount = 0 :=
  ⟨C8_transition_resets_counters.1 exHalfOpenCB .opened 9 (by decide),
   C8_transition_resets_counters.2 exReachedHalfOpenCB
     (.step (.step (.init ⟨"w", 1, 1, 10⟩ 0) (.failure _ 0)) (.allow _ 20))
     (by decide)⟩

lemma recordSuccessN_stays_closed (now : Int) :
    ∀ (k : Nat) (cb : CircuitBreaker), cb.state = .closed →
      (recordSuccessN cb now k).2 = [] ∧
      (recordSuccessN cb now k).1.state = .closed ∧
      (recordSuccessN cb now k).1.lastStateChange = cb.lastStateChange ∧
      (recordSuccessN cb now k).1.successCount = cb.successCount := by
  intro k
  induction k with
  | zero => intro cb hs; exact ⟨rfl, hs, rfl, rfl⟩
  | succ k ih =>
      intro cb hs
      have hone : RecordSuccess cb now = ({ cb with failureCount := 0 }, []) := by
        unfold RecordSuccess
        rw [hs]
      have hrec : recordSuccessN cb now (k + 1) =
          ((recordSuccessN (RecordSuccess cb now).1 now k).1,
           (RecordSuccess cb now).2 ++
             (recordSuccessN (RecordSuccess cb now).1 now k).2) := rfl
      rw [hrec, hone]
      have hnext := ih { cb with failureCount := 0 } (by simp [hs])
      refine ⟨?_, hnext.2.1, hnext.2.2.1, hnext.2.2.2⟩
      rw [hnext.1]
      rfl

/-- Claim C9: transitioning to the current state is a no-op (same breaker, no
event), and any number of repeated `RecordSuccess` calls while already
Closed never emit a state-change event, never change `lastStateChange`,
leave the state Closed and never touch the success counter (so no
counter reset via a redundant transition happens). -/
theorem C9_idempotent_transition (cb : CircuitBreaker) (now : Int) (k : Nat) :
    transitionTo cb cb.state now = (cb, []) ∧
    (cb.state = .closed →
      (recordSuccessN cb now k).2 = [] ∧
      (recordSuccessN cb now k).1.state = .closed ∧
      (recordSuccessN cb now k).1.lastStateChange = cb.lastStateChange ∧
      (recordSuccessN cb now k).1.successCount = cb.successCount) := by
  constructor
  · unfold transitionTo; simp
  · exact recordSuccessN_stays_closed now k cb

/-- Witness for C9: a fresh Closed breaker takes 5 repeated successes with
no emitted event and unchanged `lastStateChange`. -/
theorem C9_idempotent_transition_witness :
    transitionTo (New ⟨"w", 3, 1, 100⟩ 7) (New ⟨"w", 3, 1, 100⟩ 7).state 9 =
      (New ⟨"w", 3, 1, 100⟩ 7, []) ∧
    ((recordSuccessN (New ⟨"w", 3, 1, 100⟩ 7) 9 5).2 = [] ∧
     (recordSuccessN (New ⟨"w", 3, 1, 100⟩ 7) 9 5).1.state = .closed ∧
     (recordSuccessN (New ⟨"w", 3, 1, 100⟩ 7) 9 5).1.lastStateChange =
       (New ⟨"w", 3, 1, 100⟩ 7).lastStateChange ∧
     (recordSuccessN (New ⟨"w", 3, 1, 100⟩ 7) 9 5).1.successCount =
       (New ⟨"w", 3, 1, 100⟩ 7).successCount) :=
  ⟨(C9_idempotent_transition (New ⟨"w", 3, 1, 100⟩ 7) 9 5).1,
   (C9_idempotent_transition (New ⟨"w", 3, 1, 100⟩ 7) 9 5).2 (by decide)⟩

/-- Claim C10: `RecordSuccess` while Open is a complete no-op (identical
breaker, no event); an Open breaker can only leave Open via the
`AllowRequest` timeout check or an explicit `Reset`: `RecordFailure`
keeps it Open, `AllowRequest` before the timeout keeps it Open (and
refuses), `AllowRequest` at/after the timeout moves it to HalfOpen and
`Reset` moves it to Closed. -/
theorem C10_recordSuccess_open_noop (cb : CircuitBreaker) (now : Int)
    (hs : cb.state = .opened) :
    RecordSuccess cb now = (cb, []) ∧
    (RecordFailure cb now).1.state = .opened ∧
    (now - cb.lastFailure < cb.timeout → AllowRequest cb now = (false, cb, [])) ∧
    (cb.timeout ≤ now - cb.lastFailure →
      (AllowRequest cb now).2.1.state = .halfOpen) ∧
    (Reset cb now).1.state = .closed := by
  refine ⟨?_, ?_, ?_, ?_, ?_⟩
  · unfold RecordSuccess
    rw [hs]
  · unfold RecordFailure
    simp [hs]
  · intro hlt
    unfold AllowRequest
    rw [hs]
    have : ¬ now - cb.lastFailure ≥ cb.timeout := by omega
    simp [this]
  · intro hge
    have helapsed : now - cb.lastFailure ≥ cb.timeout := by omega
    unfold AllowRequest
    rw [hs]
    simp only [helapsed, if_pos]
    unfold transitionTo
    rw [hs]
    simp
  · unfold Reset
    unfold transitionTo
    rw [hs]
    simp

/-- Witness for C10: on the concrete Open breaker, `RecordSuccess` at 120
changes nothing, `RecordFailure` keeps it Open, an early check refuses,
a late check half-opens, `Reset` closes. -/
theorem C10_recordSuccess_open_noop_witness :
    RecordSuccess exOpenCB 120 = (exOpenCB, []) ∧
    (RecordFailure exOpenCB 120).1.state = .opened ∧
    (120 - exOpenCB.lastFailure < exOpenCB.timeout →
      AllowRequest exOpenCB 120 = (false, exOpenCB, [])) ∧
    (exOpenCB.timeout ≤ 120 - exOpenCB.lastFailure →
      (AllowRequest exOpenCB 120).2.1.state = .halfOpen) ∧
    (Reset exOpenCB 120).1.state = .closed :=
  C10_recordSuccess_open_noop exOpenCB 120 rfl

/-! ## The gateway dispatcher (cmd/gateway/main.go) -/

/-- Modulus of Go's `uint32`, the type of the rotation cursor
`workerIndex` (an `atomic.Uint32`) and of the loop index in
`selectWorker`. -/
def u32 : Nat := 4294967296

/-- Structure `Worker` in cmd/gateway/main.go: the fields the selector reads
(`Healthy` flag and the owned breaker `CB`), plus the identity. -/
structure GWorker where
  id : String
  healthy : Bool
  cb : CircuitBreaker
  deriving DecidableEq, Repr

/-- The two error returns of `selectWorker`: the empty-pool error
("no workers available") and the full-scan failure
("all workers are unavailable"). -/
inductive SelectError where
  | noWorkersConfigured
  | allUnavailable
  deriving DecidableEq, Repr

/-- Structure `Gateway` in cmd/gateway/main.go: the fixed worker list and the shared
rotation cursor (`workerIndex`, a `uint32`; the model keeps it `< u32`). -/
structure Gateway where
  workers : List GWorker
  workerIndex : Nat
  deriving DecidableEq, Repr

/-- The scan loop of `selectWorker`:
`for i := uint32(0); i < workerCount; i++ { idx := (startIndex+i) % workerCount ... }`.
`fuel` is the number of remaining iterations (`workerCount` at the top
call); `workerCount = uint32(len(workers))` is `length % u32`; the
`uint32` addition `startIndex + i` wraps modulo `u32`.  On the first
worker that is healthy and whose breaker permits, returns its index and
the pool with that worker's breaker updated by the `AllowRequest` side
effect (a refused or skipped worker is never mutated). -/
def selectScan (ws : List GWorker) (startIndex : Nat) (now : Int) :
    Nat → Nat → Option (Nat × List GWorker)
  | _, 0 => none
  | i, fuel + 1 =>
      let idx := (startIndex + i) % u32 % (ws.length % u32)
      match ws.get? idx with
      | none => none
      | some w =>
          if w.healthy && allowRequestB w.cb now then
            some (idx, ws.set idx { w with cb := (AllowRequest w.cb now).2.1 })
          else
            selectScan ws startIndex now (i + 1) fuel

/-- Method `selectWorker` in cmd/gateway/main.go.  With a non-empty pool the
cursor is advanced exactly once (`workerIndex.Add(1)`, a `uint32`
increment) and the post-increment value minus one — the old cursor — is
the starting index of the scan. -/
def selectWorker (g : Gateway) (now : Int) :
    Except SelectError Nat × Gateway :=
  if g.workers.length = 0 then
    (.error .noWorkersConfigured, g)
  else
    let g1 : Gateway := { g with workerIndex := (g.workerIndex + 1) % u32 }
    match selectScan g.workers (g.workerIndex % u32) now 0 (g.workers.length % u32) with
    | some p => (.ok p.1, { g1 with workers := p.2 })
    | none => (.error .allUnavailable, g1)

/-- Iterate `m` consecutive `selectWorker` calls at time `now`, collecting the
results in order. -/
def selectN (g : Gateway) (now : Int) :
    Nat → List (Except SelectError Nat) × Gateway
  | 0 => ([], g)
  | k + 1 =>
      let r := selectWorker g now
      let rest := selectN r.2 now k
      (r.1 :: rest.1, rest.2)

lemma allowRequest_eligible (cb : CircuitBreaker) (now : Int)
    (h : cb.state = .closed ∨ cb.state = .halfOpen) :
    AllowRequest cb now = (true, cb, []) := by
  unfold AllowRequest
  rcases h with h | h <;> rw [h]

lemma list_set_get_self {α : Type} :
    ∀ (ws : List α) (idx : Nat) (w : α),
      ws.get? idx = some w → ws.set idx w = ws
  | [], _, _, h => by simp at h
  | x :: xs, 0, w, h => by
      simp only [List.get?_cons_zero, Option.some_inj] at h
      rw [List.set_cons_zero, h]
  | x :: xs, n + 1, w, h => by
      simp only [List.get?_cons_succ] at h
      rw [List.set_cons_succ, list_set_get_self xs n w h]

/-- Permitting breakers keep permitting at the same instant across the
`AllowRequest` side effect: a Closed or HalfOpen breaker is returned
unchanged, and an Open breaker whose timeout has elapsed comes back
HalfOpen, which permits. -/
lemma allowRequestB_preserved (cb : CircuitBreaker) (now : Int)
    (h : allowRequestB cb now = true) :
    allowRequestB (AllowRequest cb now).2.1 now = true := by
  cases hs : cb.state with
  | closed => simp [allowRequestB, AllowRequest, hs]
  | halfOpen => simp [allowRequestB, AllowRequest, hs]
  | opened =>
      by_cases he : now - cb.lastFailure ≥ cb.timeout
      · simp [allowRequestB, AllowRequest, transitionTo, hs, he]
      · unfold allowRequestB AllowRequest at h
        rw [hs] at h
        simp [he] at h

/-- All-eligible pools, with eligibility exactly as the selection filter
tests a worker: liveness flag true and breaker permitting
(`AllowRequest` true) â which covers Closed and HalfOpen breakers and
also Open breakers whose timeout has elapsed. -/
def allEligible (g : Gateway) (now : Int) : Prop :=
  ∀ w ∈ g.workers, w.healthy = true ∧ allowRequestB w.cb now = true

lemma selectWorker_all_eligible (g : Gateway) (now : Int)
    (h0 : 0 < g.workers.length) (hu : g.workers.length < u32)
    (hc : g.workerIndex < u32) (helig : allEligible g now) :
    (selectWorker g now).1 = .ok (g.workerIndex % g.workers.length) ∧
    (selectWorker g now).2.workers.length = g.workers.length ∧
    allEligible (selectWorker g now).2 now ∧
    (selectWorker g now).2.workerIndex = (g.workerIndex + 1) % u32 := by
  have hlen0 : g.workers.length ≠ 0 := by omega
  have hmodlen : g.workers.length % u32 = g.workers.length := Nat.mod_eq_of_lt hu
  obtain ⟨f, hf⟩ : ∃ f, g.workers.length % u32 = f + 1 := by
    rw [hmodlen]
    exact ⟨g.workers.length - 1, by omega⟩
  have hidx : (g.workerIndex % u32 + 0) % u32 % (g.workers.length % u32) =
      g.workerIndex % g.workers.length := by
    rw [Nat.mod_eq_of_lt hc, hmodlen, Nat.add_zero, Nat.mod_eq_of_lt hc]
  have hlt : g.workerIndex % g.workers.length < g.workers.length :=
    Nat.mod_lt _ h0
  have hget : g.workers.get? (g.workerIndex % g.workers.length) =
      some (g.workers.get ⟨g.workerIndex % g.workers.length, hlt⟩) :=
    List.get?_eq_get hlt
  set w := g.workers.get ⟨g.workerIndex % g.workers.length, hlt⟩ with hw
  have hwmem : w ∈ g.workers := List.get_mem _ _ _
  have hwe := helig w hwmem
  have hcond : (w.healthy && allowRequestB w.cb now) = true := by
    rw [hwe.1, hwe.2]
    rfl
  have hscan : selectScan g.workers (g.workerIndex % u32) now 0
      (g.workers.length % u32) =
      some (g.workerIndex % g.workers.length,
        g.workers.set (g.workerIndex % g.workers.length)
          { w with cb := (AllowRequest w.cb now).2.1 }) := by
    rw [hf]
    unfold selectScan
    simp only [hidx, hget, hcond, if_pos]
  have hsw : selectWorker g now =
      (.ok (g.workerIndex % g.workers.length),
       { workers := g.workers.set (g.workerIndex % g.workers.length)
           { w with cb := (AllowRequest w.cb now).2.1 }
         workerIndex := (g.workerIndex + 1) % u32 }) := by
    unfold selectWorker
    rw [if_neg hlen0, hscan]
  rw [hsw]
  refine ⟨rfl, List.length_set g.workers _ _, ?_, rfl⟩
  intro w' hw'
  rcases List.mem_or_eq_of_mem_set hw' with hmem | heq
  · exact helig w' hmem
  · subst heq
    exact ⟨hwe.1, allowRequestB_preserved w.cb now hwe.2⟩

lemma selectN_all_eligible (now : Int) (n : Nat) :
    ∀ (m : Nat) (g : Gateway) (c : Nat), g.workerIndex = c →
      g.workers.length = n → 0 < n → n < u32 →
      c < u32 → c + m ≤ u32 → allEligible g now →
      (selectN g now m).1 =
        (List.range m).map (fun k => .ok ((c + k) % n)) ∧
      (selectN g now m).2.workers.length = n ∧
      (selectN g now m).2.workerIndex = (c + m) % u32 := by
  intro m
  induction m with
  | zero =>
      intro g c hc hn h0 hu hcu _ _
      refine ⟨rfl, hn, ?_⟩
      show g.workerIndex = (c + 0) % u32
      rw [hc, Nat.add_zero, Nat.mod_eq_of_lt hcu]
  | succ m ih =>
      intro g c hc hn h0 hu hcu hwrap helig
      have hone := selectWorker_all_eligible g now (by omega) (by omega)
        (by omega) helig
      have hsel1 : selectN g now (m + 1) =
          ((selectWorker g now).1 :: (selectN (selectWorker g now).2 now m).1,
           (selectN (selectWorker g now).2 now m).2) := rfl
      have hupos : 0 < u32 := by simp [u32]
      have hnext := ih (selectWorker g now).2 ((c + 1) % u32)
        (by rw [hone.2.2.2, hc]) (hone.2.1.trans hn) h0 hu
        (Nat.mod_lt _ hupos)
        (by
          have hmod := Nat.mod_lt (c + 1) hupos
          rcases Nat.eq_zero_or_pos m with hm | hm
          · omega
          · rw [Nat.mod_eq_of_lt (by omega)]; omega)
        hone.2.2.1
      simp only [hsel1]
      refine ⟨?_, hnext.2.1, ?_⟩
      · rw [hone.1, hnext.1, hc, hn]
        rcases Nat.eq_zero_or_pos m with hm | hm
        · subst hm
          simp [List.range_succ]
        · have hcm : (c + 1) % u32 = c + 1 := Nat.mod_eq_of_lt (by omega)
          rw [hcm, List.range_succ_eq_map, List.map_cons, List.map_map]
          rw [Nat.add_zero]
          congr 1
          apply List.map_congr_left
          intro k _
          simp only [Function.comp_apply, Nat.succ_eq_add_one]
          rw [show c + 1 + k = c + (k + 1) from by omega]
      · rw [hnext.2.2]
        rcases Nat.eq_zero_or_pos m with hm | hm
        · subst hm
          rw [Nat.add_zero]
          simp only [u32]
          omega
        · have hcm : (c + 1) % u32 = c + 1 := Nat.mod_eq_of_lt (by omega)
          rw [hcm]
          congr 1
          omega

/-- A fresh healthy worker (Closed breaker), as `createWorker` builds one
(failure threshold 3, success threshold 1, timeout 30s). -/
def exWorker (i : String) : GWorker :=
  { id := i
    healthy := true
    cb := New ⟨i, 3, 1, 30000000000⟩ 0 }

/-- A pool of 3 all-eligible workers whose `uint32` rotation cursor sits
just before the wrap-around, as after 4294967295 earlier selections. -/
def exWrapGateway : Gateway :=
  { workers := [exWorker "a", exWorker "b", exWorker "c"]
    workerIndex := 4294967295 }

/-- Counterexample for C5: All 3 workers of `exWrapGateway` are eligible
(healthy, breaker permitting), yet 3 consecutive `selectWorker` calls
return worker 0, worker 0 again and worker 1: worker 0 is visited twice
and worker 2 not at all, because the `uint32` cursor wraps from
4294967295 to 0 and 4294967295 % 3 = 0 = 0 % 3.  This refutes the claim
as stated (for every all-eligible pool and cursor position). -/
theorem C5_round_robin_counterexample :
    exWrapGateway.workers.length = 3 ∧
    (∀ w ∈ exWrapGateway.workers,
      w.healthy = true ∧ allowRequestB w.cb 0 = true) ∧
    (selectN exWrapGateway 0 3).1 = [.ok 0, .ok 0, .ok 1] := by
  refine ⟨rfl, by decide, ?_⟩
  rfl

/-- A healthy worker whose breaker is Open with last failure at 100 and
timeout 50: refused by the breaker at instant 120, permitting (a trial
request, transitioning to HalfOpen) at instant 200. -/
def exOpenWorker : GWorker :=
  { id := "openw"
    healthy := true
    cb := exOpenCB }

/-- Claim C5 as amended: For a pool of `n` workers, all eligible exactly
as the selector tests them (liveness flag true and breaker permitting:
Closed, HalfOpen, or Open with elapsed timeout), with cursor `c`,
*provided the `n` calls do not straddle the `uint32` wrap-around of the
cursor* (`c + n ≤ 2^32`), the `n` consecutive `selectWorker` calls
return exactly the indices `(c + k) % n` for `k = 0, …, n-1` â each in
pool-list order from the starting cursor position, with the first
inspected slot already eligible (so each call scans one slot, within the
`≤ n` bound) â these `n` indices are pairwise distinct and cover every
worker, each call advances the shared cursor by exactly one (`uint32`
increment), and the pool keeps its size. -/
theorem C5_round_robin_fairness (g : Gateway) (now : Int) (n c : Nat)
    (hn : g.workers.length = n) (h0 : 0 < n) (hc : g.workerIndex = c)
    (hu : n < u32) (hwrap : c + n ≤ u32) (helig : allEligible g now) :
    (selectN g now n).1 = (List.range n).map (fun k => .ok ((c + k) % n)) ∧
    (selectN g now n).2.workers.length = n ∧
    (selectN g now n).2.workerIndex = (c + n) % u32 ∧
    (∀ k1 k2, k1 < n → k2 < n → (c + k1) % n = (c + k2) % n → k1 = k2) ∧
    (∀ j, j < n → ∃ k, k < n ∧ (c + k) % n = j) := by
  have hbase := selectN_all_eligible now n n g c hc hn h0 hu
    (by omega) hwrap helig
  refine ⟨hbase.1, hbase.2.1, hbase.2.2, ?_, ?_⟩
  · intro k1 k2 hk1 hk2 heq
    have hmodeq : Nat.ModEq n (c + k1) (c + k2) := heq
    have hk : Nat.ModEq n k1 k2 := Nat.ModEq.add_left_cancel' c hmodeq
    have : k1 % n = k2 % n := hk
    rwa [Nat.mod_eq_of_lt hk1, Nat.mod_eq_of_lt hk2] at this
  · intro j hj
    have hr : c % n < n := Nat.mod_lt _ h0
    refine ⟨(j + n - c % n) % n, Nat.mod_lt _ h0, ?_⟩
    rw [Nat.add_mod c, Nat.add_mod_mod, Nat.add_mod_mod]
    rw [show c % n + (j + n - c % n) = j + n from by omega]
    rw [Nat.add_mod_right, Nat.mod_eq_of_lt hj]

/-- Witness for the amended C5: two fresh Closed workers plus one whose
Open breaker has an elapsed timeout (so it permits without being Closed
or HalfOpen), cursor 7, at instant 200: the three calls return workers
1, 2, 0, the cursor ends at 10, the pool keeps size 3. -/
theorem C5_round_robin_fairness_witness :
    (selectN ⟨[exWorker "a", exOpenWorker, exWorker "c"], 7⟩ 200 3).1 =
      (List.range 3).map (fun k => .ok ((7 + k) % 3)) ∧
    (selectN ⟨[exWorker "a", exOpenWorker, exWorker "c"], 7⟩ 200 3).2.workers.length =
      3 ∧
    (selectN ⟨[exWorker "a", exOpenWorker, exWorker "c"], 7⟩ 200 3).2.workerIndex =
      (7 + 3) % u32 ∧
    (∀ k1 k2, k1 < 3 → k2 < 3 → (7 + k1) % 3 = (7 + k2) % 3 → k1 = k2) ∧
    (∀ j, j < 3 → ∃ k, k < 3 ∧ (7 + k) % 3 = j) :=
  C5_round_robin_fairness ⟨[exWorker "a", exOpenWorker, exWorker "c"], 7⟩ 200 3 7
    rfl (by decide) rfl (by decide) (by decide)
    (by unfold allEligible; decide)

lemma selectScan_none_of_all_refused (ws : List GWorker) (now : Int)
    (h : ∀ w ∈ ws, (w.healthy && allowRequestB w.cb now) = false) :
    ∀ (fuel i startIndex : Nat),
      selectScan ws startIndex now i fuel = none := by
  intro fuel
  induction fuel with
  | zero => intro i startIndex; rfl
  | succ fuel ih =>
      intro i startIndex
      unfold selectScan
      cases hw : ws.get? ((startIndex + i) % u32 % (ws.length % u32)) with
      | none => simp only [hw]
      | some w =>
          have hmem : w ∈ ws := List.get?_mem hw
          simp only [hw, h w hmem, Bool.false_eq_true, if_false]
          exact ih (i + 1) startIndex

/-- Claim C6: When every worker in the (non-empty) pool is either
liveness-false or rejected by its breaker, `selectWorker` returns the
all-unavailable error and no worker, leaves the pool untouched, and the
shared rotation cursor is still advanced by exactly one (`uint32`
increment). -/
theorem C6_no_worker_available (g : Gateway) (now : Int)
    (h0 : 0 < g.workers.length)
    (hinelig : ∀ w ∈ g.workers, (w.healthy && allowRequestB w.cb now) = false) :
    (selectWorker g now).1 = .error .allUnavailable ∧
    (selectWorker g now).2.workers = g.workers ∧
    (selectWorker g now).2.workerIndex = (g.workerIndex + 1) % u32 := by
  unfold selectWorker
  rw [if_neg (by omega)]
  rw [selectScan_none_of_all_refused g.workers now hinelig
    (g.workers.length % u32) 0 (g.workerIndex % u32)]
  exact ⟨rfl, rfl, rfl⟩

/-- An unhealthy worker (fresh Closed breaker, liveness flag false). -/
def exDeadWorker : GWorker :=
  { id := "dead"
    healthy := false
    cb := New ⟨"dead", 3, 1, 30000000000⟩ 0 }

/-- Witness for C6: a pool holding one liveness-false worker and one
breaker-rejected worker at instant 120, cursor 5: selection fails with
the all-unavailable error, the pool is untouched, the cursor moves to 6. -/
theorem C6_no_worker_available_witness :
    (selectWorker ⟨[exDeadWorker, exOpenWorker], 5⟩ 120).1 =
      .error .allUnavailable ∧
    (selectWorker ⟨[exDeadWorker, exOpenWorker], 5⟩ 120).2.workers =
      [exDeadWorker, exOpenWorker] ∧
    (selectWorker ⟨[exDeadWorker, exOpenWorker], 5⟩ 120).2.workerIndex =
      (5 + 1) % u32 :=
  C6_no_worker_available ⟨[exDeadWorker, exOpenWorker], 5⟩ 120
    (by decide) (by decide)

/-- The two kinds of error the remote `GenerateText` call can return to
the dispatcher: a deadline-exceeded error, or a domain error reported by
the backend.  In Go these are distinct `error` values. -/
inductive CallError where
  | timeout
  | backend
  deriving DecidableEq, Repr

/-- The distinct reportable outcomes of one `/prompt` dispatch in
`handlePrompt` (cmd/gateway/main.go): the error value the handler
receives is propagated unchanged (`Execute` returns `fn`'s error itself,
`selectWorker`'s error is its own value, `ErrCircuitOpen` is a
distinguished sentinel), so each distinct error value is a distinct
outcome of this type. -/
inductive Outcome where
  | success
  | timeout
  | backendError
  | circuitOpen
  | noWorkerAvailable
  deriving DecidableEq, Repr

/-- The dispatch core of `handlePrompt` in cmd/gateway/main.go: select a
worker by round robin; on failure report no-worker-available; otherwise
run the remote call (whose error, if any, is `fnErr`) through the
selected worker's breaker via `Execute` and classify the propagated
error value. -/
def handlePromptDispatch (g : Gateway) (now : Int) (fnErr : Option CallError) :
    Outcome × Gateway :=
  match selectWorker g now with
  | (.error _, g1) => (.noWorkerAvailable, g1)
  | (.ok idx, g1) =>
      match g1.workers.get? idx with
      | none => (.noWorkerAvailable, g1)
      | some w =>
          let e := Execute w.cb fnErr now
          let g2 : Gateway :=
            { g1 with workers := g1.workers.set idx { w with cb := e.cb } }
          match e.result with
          | some .circuitOpen => (.circuitOpen, g2)
          | some (.fnError .timeout) => (.timeout, g2)
          | some (.fnError .backend) => (.backendError, g2)
          | none => (.success, g2)

/-- Claim C7: A deadline-exceeded remote call is recorded as a breaker
failure against the selected worker (its breaker afterwards is exactly
`RecordFailure` of it, so `lastFailure` is stamped) and is propagated as
the Timeout outcome, distinct from BackendError; a backend error yields
the BackendError outcome; and Timeout, BackendError, CircuitOpen and
NoWorkerAvailable are four pairwise distinct reportable outcomes. -/
lemma recordFailure_stamps_lastFailure (cb : CircuitBreaker) (now : Int) :
    (RecordFailure cb now).1.lastFailure = now := by
  cases hs : cb.state with
  | closed =>
      simp only [RecordFailure, transitionTo, hs]
      split
      · split <;> rfl
      · rfl
  | halfOpen =>
      simp only [RecordFailure, transitionTo, hs]
      split <;> rfl
  | opened => simp only [RecordFailure, hs]

theorem C7_timeout_distinct_outcome (g : Gateway) (now : Int) (idx : Nat)
    (w : GWorker)
    (hsel : (selectWorker g now).1 = .ok idx)
    (hw : (selectWorker g now).2.workers.get? idx = some w)
    (hstate : w.cb.state = .closed ∨ w.cb.state = .halfOpen) :
    ((handlePromptDispatch g now (some .timeout)).1 = .timeout ∧
     (handlePromptDispatch g now (some .timeout)).2.workers =
       (selectWorker g now).2.workers.set idx
         { w with cb := (RecordFailure w.cb now).1 } ∧
     (RecordFailure w.cb now).1.lastFailure = now) ∧
    (handlePromptDispatch g now (some .backend)).1 = .backendError ∧
    (Outcome.timeout ≠ Outcome.backendError ∧
     Outcome.timeout ≠ Outcome.circuitOpen ∧
     Outcome.timeout ≠ Outcome.noWorkerAvailable ∧
     Outcome.backendError ≠ Outcome.circuitOpen ∧
     Outcome.backendError ≠ Outcome.noWorkerAvailable ∧
     Outcome.circuitOpen ≠ Outcome.noWorkerAvailable) := by
  have hallow : AllowRequest w.cb now = (true, w.cb, []) :=
    allowRequest_eligible w.cb now hstate
  have hexec : ∀ ce : CallError, Execute w.cb (some ce) now =
      { result := some (.fnError ce)
        invocations := 1
        cb := (RecordFailure w.cb now).1
        events := [] ++ (RecordFailure w.cb now).2 } := by
    intro ce
    unfold Execute
    rw [hallow]
    rfl
  have hdisp : ∀ ce : CallError, handlePromptDispatch g now (some ce) =
      ((match ce with
        | .timeout => Outcome.timeout
        | .backend => Outcome.backendError),
       { workers := (selectWorker g now).2.workers.set idx
           { w with cb := (RecordFailure w.cb now).1 }
         workerIndex := (selectWorker g now).2.workerIndex }) := by
    intro ce
    unfold handlePromptDispatch
    rcases hsw : selectWorker g now with ⟨r, g1⟩
    rw [hsw] at hsel hw
    simp only [] at hsel hw
    subst hsel
    simp only [hw, hexec ce]
    cases ce <;> rfl
  refine ⟨⟨?_, ?_, recordFailure_stamps_lastFailure w.cb now⟩, ?_, by decide⟩
  · rw [hdisp CallError.timeout]
  · rw [hdisp CallError.timeout]
  · rw [hdisp CallError.backend]

/-- A single-worker pool (healthy, Closed breaker), cursor 0. -/
def exOneWorkerGateway : Gateway :=
  { workers := [exWorker "a"]
    workerIndex := 0 }

/-- Witness for C7: on the one-worker pool at instant 5, a timed-out call
yields the Timeout outcome and stamps a breaker failure on the selected
worker; a backend error yields BackendError; the four failure outcomes
are pairwise distinct. -/
theorem C7_timeout_distinct_outcome_witness :
    ((handlePromptDispatch exOneWorkerGateway 5 (some .timeout)).1 =
       .timeout ∧
     (handlePromptDispatch exOneWorkerGateway 5 (some .timeout)).2.workers =
       (selectWorker exOneWorkerGateway 5).2.workers.set 0
         { exWorker "a" with cb := (RecordFailure (exWorker "a").cb 5).1 } ∧
     (RecordFailure (exWorker "a").cb 5).1.lastFailure = 5) ∧
    (handlePromptDispatch exOneWorkerGateway 5 (some .backend)).1 =
      .backendError ∧
    (Outcome.timeout ≠ Outcome.backendError ∧
     Outcome.timeout ≠ Outcome.circuitOpen ∧
     Outcome.timeout ≠ Outcome.noWorkerAvailable ∧
     Outcome.backendError ≠ Outcome.circuitOpen ∧
     Outcome.backendError ≠ Outcome.noWorkerAvailable ∧
     Outcome.circuitOpen ≠ Outcome.noWorkerAvailable) :=
  C7_timeout_distinct_outcome exOneWorkerGateway 5 0 (exWorker "a")
    rfl rfl (Or.inl rfl)
